import Mathlib

/-!
Box-breathing controller (`script.js`).

A shallow embedding of the phase/animation state machine of `script.js`.

* The module-level variables (`currentPhaseIndex`, `isRunning`,
  `isPausedRequested`, `animationTimeoutId`, `resumeButtonTimeoutId`) are the
  fields of `State`, together with the inline styles the script writes and the
  browser's list of active timers.
* `setTimeout` appends a timer with a fresh handle to the list of active
  timers; `clearTimeout` / `clearInterval` remove the timer with the given
  handle (the two share one list of handles in a browser).
* A lookup `phases[i]` outside the table is `undefined` in JavaScript and the
  property access on it throws; such a run is `none` here.
* `window.getComputedStyle(point)` reads the rendered position of the point,
  which the script does not determine; it is an argument of the callback.
-/

namespace BoxBreathing

/-- One entry of the `phases` table. -/
structure Phase where
  name : String
  duration : Nat
  action : String
deriving DecidableEq

/-- The `phases` table of the script. -/
def phases : List Phase :=
  [ { name := "INHALE", duration := 4, action := "inhale" },
    { name := "HOLD", duration := 4, action := "hold-top" },
    { name := "EXHALE", duration := 4, action := "exhale" },
    { name := "HOLD", duration := 4, action := "hold-bottom" } ]

def initialSquareSize : Int := 300
def pointSize : Int := 20
def borderThickness : Int := 2
def visualSquareSize : Int := initialSquareSize
def pointRadius : Int := pointSize / 2
def expandedContainerSize : Int := visualSquareSize + (borderThickness * 2)
def containerOffset : Int := -(borderThickness)

/-- The template literal that renders a number followed by `px`. -/
def px (n : Int) : String := toString n ++ "px"

/-- The object returned by `calculateArrowPosition`. -/
structure Position where
  left : String
  top : String
deriving DecidableEq

/-- The pair `(targetLeft, targetTop)` computed by the `switch` of
`calculateArrowPosition`; an action matching no `case` leaves both at `0`. -/
def targetCoords (action : String) : Int × Int :=
  if action = "inhale" then
    (borderThickness - pointRadius, borderThickness - pointRadius)
  else if action = "hold-top" then
    (visualSquareSize + borderThickness - pointRadius, borderThickness - pointRadius)
  else if action = "exhale" then
    (visualSquareSize + borderThickness - pointRadius,
      visualSquareSize + borderThickness - pointRadius)
  else if action = "hold-bottom" then
    (borderThickness - pointRadius, visualSquareSize + borderThickness - pointRadius)
  else
    (0, 0)

/-- Source function `calculateArrowPosition`. -/
def calculateArrowPosition (action : String) : Position :=
  { left := px (targetCoords action).1, top := px (targetCoords action).2 }

/-- The two callbacks the script hands to `setTimeout`. -/
inductive TimerKind where
  | phaseTimeout
  | idleGlyph
deriving DecidableEq

/-- An active timer: its handle, its callback and its delay in milliseconds. -/
structure Timer where
  id : Nat
  kind : TimerKind
  delay : Nat
deriving DecidableEq

/-- The inline style of the point that the script writes. -/
structure PointStyle where
  transition : String
  left : String
  top : String
deriving DecidableEq

/-- The inline style of a box (`animationArea`, `pointContainer`). -/
structure BoxStyle where
  width : String
  height : String
  top : String
  left : String
  position : String
deriving DecidableEq

/-- The module-level variables, the written styles and the active timers. -/
structure State where
  currentPhaseIndex : Nat
  isRunning : Bool
  isPausedRequested : Bool
  animationTimeoutId : Option Nat
  resumeButtonTimeoutId : Option Nat
  phaseText : String
  point : PointStyle
  animationArea : BoxStyle
  pointContainer : BoxStyle
  timers : List Timer
  nextTimerId : Nat
deriving DecidableEq

/-- The value of `clearTimeout(handle)` / `clearInterval(handle)` on the list
of active timers; an `undefined` handle (`none`) clears nothing. -/
def clearTimer (handle : Option Nat) (timers : List Timer) : List Timer :=
  match handle with
  | none => timers
  | some h => timers.filter (fun t => t.id != h)

/-- The template literal assigned to `point.style.transition`, for a duration
that is a whole number of seconds: a JavaScript number prints such a `d` as its
decimal digits (below `10 ^ 21`), which is the case for the durations of the
table. -/
def linearTransition (d : Nat) : String :=
  "left " ++ toString d ++ "s linear, top " ++ toString d ++ "s linear"

/-- Source function `resetAnimationToStart`. -/
def resetAnimationToStart (s : State) : Option State := do
  let s := { s with timers := clearTimer s.animationTimeoutId s.timers }
  let s := { s with timers := clearTimer s.resumeButtonTimeoutId s.timers }
  let s := { s with isRunning := false }
  let s := { s with isPausedRequested := false }
  let s := { s with currentPhaseIndex := 0 }
  let s := { s with phaseText := "▶" }
  let s := { s with animationArea :=
    { width := px visualSquareSize, height := px visualSquareSize,
      top := "0px", left := "0px", position := "relative" } }
  let s := { s with pointContainer :=
    { width := px expandedContainerSize, height := px expandedContainerSize,
      top := px containerOffset, left := px containerOffset, position := "absolute" } }
  let s := { s with point := { s.point with transition := "none" } }
  let initialPosition := calculateArrowPosition "hold-bottom"
  let s := { s with point := { s.point with left := initialPosition.left } }
  let s := { s with point := { s.point with top := initialPosition.top } }
  let phase ← phases[s.currentPhaseIndex]?
  pure { s with point := { s.point with transition := linearTransition phase.duration } }

/-- Source function `startPhaseAnimation`; `durationOverride` is `none` when
the call passes no argument, and the default `phases[currentPhaseIndex].duration`
is then evaluated on entry. The timer it sets is recorded in
`animationTimeoutId`. The script only ever calls it without an argument. An
explicit override is a whole number of seconds here, as the durations of the
table are; this agrees with the script while `d * 1000 < 2 ^ 53`, and a
JavaScript number outside that range (a fraction, a larger value) has no
counterpart in this embedding. -/
def startPhaseAnimation (durationOverride : Option Nat) (s : State) : Option State := do
  let durationOverride ←
    match durationOverride with
    | some d => some d
    | none => (phases[s.currentPhaseIndex]?).map (fun p => p.duration)
  if !s.isRunning then
    pure s
  else
    let currentPhase ← phases[s.currentPhaseIndex]?
    let s := { s with phaseText := currentPhase.name }
    let targetPosition := calculateArrowPosition currentPhase.action
    let s := { s with point := { s.point with transition := linearTransition durationOverride } }
    let s := { s with point := { s.point with left := targetPosition.left } }
    let s := { s with point := { s.point with top := targetPosition.top } }
    pure { s with
      animationTimeoutId := some s.nextTimerId
      timers := s.timers ++ [{ id := s.nextTimerId, kind := .phaseTimeout,
                               delay := durationOverride * 1000 }]
      nextTimerId := s.nextTimerId + 1 }

/-- The callback scheduled by the pause branch (`resumeButtonTimeoutId`). -/
def idleGlyphCallback (s : State) : State :=
  { s with phaseText := "▶", isPausedRequested := false }

/-- The callback scheduled by `startPhaseAnimation`; `computed` is what
`window.getComputedStyle(point)` reads when it runs. -/
def phaseTimeoutCallback (computed : Position) (s : State) : Option State := do
  if s.isPausedRequested then
    let s := { s with isRunning := false }
    let finalLeft := computed.left
    let finalTop := computed.top
    let s := { s with point := { s.point with transition := "none" } }
    let s := { s with point := { s.point with left := finalLeft } }
    let s := { s with point := { s.point with top := finalTop } }
    let s := { s with currentPhaseIndex := (s.currentPhaseIndex + 1) % phases.length }
    let _ ← phases[s.currentPhaseIndex]?
    pure { s with
      resumeButtonTimeoutId := some s.nextTimerId
      timers := s.timers ++ [{ id := s.nextTimerId, kind := .idleGlyph, delay := 1000 }]
      nextTimerId := s.nextTimerId + 1 }
  else
    let s := { s with currentPhaseIndex := (s.currentPhaseIndex + 1) % phases.length }
    startPhaseAnimation none s

/-- Source function `startBreathing`. -/
def startBreathing (s : State) : Option State := do
  if s.isRunning then
    pure s
  else
    let s := { s with isRunning := true }
    let s := { s with isPausedRequested := false }
    let s ←
      if s.currentPhaseIndex = 0 && !s.isPausedRequested then
        resetAnimationToStart s
      else do
        let phase ← phases[s.currentPhaseIndex]?
        pure { s with point := { s.point with transition := linearTransition phase.duration } }
    startPhaseAnimation none s

/-- Source function `requestPause`. -/
def requestPause (s : State) : State :=
  if !s.isRunning then
    s
  else
    let s := { s with isPausedRequested := true }
    let s := { s with phaseText := "⏸" }
    { s with timers := clearTimer s.resumeButtonTimeoutId s.timers }

/-- Source function `resumeAnimation`. -/
def resumeAnimation (s : State) : Option State := do
  if s.isRunning then
    pure s
  else
    let s := { s with isRunning := true }
    let s := { s with isPausedRequested := false }
    let s := { s with timers := clearTimer s.resumeButtonTimeoutId s.timers }
    let _ ← phases[s.currentPhaseIndex]?
    startPhaseAnimation none s

/-- Source function `toggleBreathing`. -/
def toggleBreathing (s : State) : Option State :=
  if s.isRunning then
    some (requestPause s)
  else
    resumeAnimation s

/-- The browser runs the callback of the active timer with handle `h`: the
timer leaves the list of active timers, then its callback runs. No active
timer with that handle: nothing to run (`none`). -/
def fireTimer (h : Nat) (computed : Position) (s : State) : Option State :=
  match s.timers.find? (fun t => t.id == h) with
  | none => none
  | some t =>
    let s := { s with timers := s.timers.filter (fun u => u.id != h) }
    match t.kind with
    | .phaseTimeout => phaseTimeoutCallback computed s
    | .idleGlyph => some (idleGlyphCallback s)

/-- The module-level initialisers, before the reset at the end of the script
runs: no inline style written yet, no timer set. `firstHandle` is the handle
the browser will give to the first timer. -/
def moduleInit (firstHandle : Nat) : State :=
  { currentPhaseIndex := 0
    isRunning := false
    isPausedRequested := false
    animationTimeoutId := none
    resumeButtonTimeoutId := none
    phaseText := ""
    point := { transition := "", left := "", top := "" }
    animationArea := { width := "", height := "", top := "", left := "", position := "" }
    pointContainer := { width := "", height := "", top := "", left := "", position := "" }
    timers := []
    nextTimerId := firstHandle }

/-- The states the page can be in: the state left by the reset that ends the
script, and every state obtained from it by calls of the five controller
functions and by the browser running the callback of an active timer. -/
inductive Reachable : State → Prop where
  | load (firstHandle : Nat) (s : State) :
      resetAnimationToStart (moduleInit firstHandle) = some s → Reachable s
  | reset (s s1 : State) :
      Reachable s → resetAnimationToStart s = some s1 → Reachable s1
  | start (s s1 : State) :
      Reachable s → startBreathing s = some s1 → Reachable s1
  | pause (s : State) :
      Reachable s → Reachable (requestPause s)
  | resume (s s1 : State) :
      Reachable s → resumeAnimation s = some s1 → Reachable s1
  | toggle (s s1 : State) :
      Reachable s → toggleBreathing s = some s1 → Reachable s1
  | fire (s s1 : State) (h : Nat) (computed : Position) :
      Reachable s → fireTimer h computed s = some s1 → Reachable s1

/-- The active timers whose callback is the phase-timeout callback. -/
def phaseTimers (s : State) : List Timer :=
  s.timers.filter (fun t => t.kind = TimerKind.phaseTimeout)

/-- The active timers whose callback is the idle-glyph callback. -/
def idleTimers (s : State) : List Timer :=
  s.timers.filter (fun t => t.kind = TimerKind.idleGlyph)

/-- The state after the page has loaded, with first timer handle `1`. -/
def loaded : State :=
  (resetAnimationToStart (moduleInit 1)).getD (moduleInit 1)

/-- The state after `resumeAnimation` on the loaded page: phase 0 is animating
and its timer (handle `1`) is active. -/
def animating0 : State :=
  (resumeAnimation loaded).getD loaded

/-- What can happen to the page: a call of one of the five controller
functions, or the browser running the callback of the timer with handle `h`. -/
inductive Event where
  | reset
  | start
  | pause
  | resume
  | toggle
  | fire (h : Nat) (computed : Position)
deriving DecidableEq

/-- The effect of one event on the state. -/
def step (e : Event) (s : State) : Option State :=
  match e with
  | .reset => resetAnimationToStart s
  | .start => startBreathing s
  | .pause => some (requestPause s)
  | .resume => resumeAnimation s
  | .toggle => toggleBreathing s
  | .fire h computed => fireTimer h computed s

/-- The effect of a sequence of events, first event first. -/
def runEvents (es : List Event) (s : State) : Option State :=
  match es with
  | [] => some s
  | e :: rest => (step e s).bind (runEvents rest)

/-- Every active timer is the one its handle variable holds: a phase-timeout
timer has the handle in `animationTimeoutId`, an idle-glyph timer the handle in
`resumeButtonTimeoutId`. -/
def Tracked (s : State) : Prop :=
  ∀ t ∈ s.timers,
    (t.kind = TimerKind.phaseTimeout → s.animationTimeoutId = some t.id) ∧
    (t.kind = TimerKind.idleGlyph → s.resumeButtonTimeoutId = some t.id)

/-- Phase 0 is paused, and before the idle glyph is shown `startBreathing`
starts phase 1: a timer of each kind is then active. -/
def bothPendingEvents : List Event :=
  [.resume, .pause, .fire 1 ⟨"-8px", "-8px"⟩, .start]

/-- The state `bothPendingEvents` leads to from the loaded page. -/
def bothPending : State :=
  (runEvents bothPendingEvents loaded).getD loaded

/-- Start from the loaded page and let three phases elapse. -/
def animating3Events : List Event :=
  [.resume, .fire 1 ⟨"-8px", "-8px"⟩, .fire 2 ⟨"292px", "-8px"⟩, .fire 3 ⟨"292px", "292px"⟩]

/-- The state in which the last phase (index 3) is animating. -/
def animating3 : State :=
  (runEvents animating3Events loaded).getD loaded

/-- Start phase 0 from the loaded page, request a pause and let the phase end. -/
def pausedPending1Events : List Event :=
  [.resume, .pause, .fire 1 ⟨"-8px", "-8px"⟩]

/-- The state left by a completed pause of phase 0, before the idle glyph is
shown: stopped at index 1 with the idle-glyph timer active. -/
def pausedPending1 : State :=
  (runEvents pausedPending1Events loaded).getD loaded

/-- The browser runs the callback of the active phase-timeout timer (the first
one in the list of active timers); none active: nothing to run. -/
def firePhaseTimeout (computed : Position) (s : State) : Option State :=
  match s.timers.find? (fun t => t.kind = TimerKind.phaseTimeout) with
  | none => none
  | some t => fireTimer t.id computed s

/-- The phase-timeout callback fires `cs.length` times in a row, with nothing
in between; `cs` lists the rendered position read at each firing. -/
def firePhaseTimeouts (cs : List Position) (s : State) : Option State :=
  match cs with
  | [] => some s
  | c :: rest => (firePhaseTimeout c s).bind (firePhaseTimeouts rest)

/-- Five rendered positions, one read at each of five firings. -/
def fiveReads : List Position :=
  [⟨"-8px", "-8px"⟩, ⟨"292px", "-8px"⟩, ⟨"292px", "292px"⟩, ⟨"-8px", "292px"⟩,
   ⟨"-8px", "-8px"⟩]

/-- Phase 0 is paused, `startBreathing` starts phase 1 before the idle glyph
is shown, and then the idle-glyph timer of the pause (handle `2`) fires. -/
def staleGlyphEvents : List Event :=
  [.resume, .pause, .fire 1 ⟨"-8px", "-8px"⟩, .start, .fire 2 ⟨"-8px", "-8px"⟩]

/-- The state `staleGlyphEvents` leads to from the loaded page. -/
def staleGlyph : State :=
  (runEvents staleGlyphEvents loaded).getD loaded

/-- The states the page can be in when `startBreathing` is never called (the
script itself only wires `toggleBreathing` to the click). -/
inductive ReachableWired : State → Prop where
  | load (firstHandle : Nat) (s : State) :
      resetAnimationToStart (moduleInit firstHandle) = some s → ReachableWired s
  | reset (s s1 : State) :
      ReachableWired s → resetAnimationToStart s = some s1 → ReachableWired s1
  | pause (s : State) :
      ReachableWired s → ReachableWired (requestPause s)
  | resume (s s1 : State) :
      ReachableWired s → resumeAnimation s = some s1 → ReachableWired s1
  | toggle (s s1 : State) :
      ReachableWired s → toggleBreathing s = some s1 → ReachableWired s1
  | fire (s s1 : State) (h : Nat) (computed : Position) :
      ReachableWired s → fireTimer h computed s = some s1 → ReachableWired s1

/-- The index of the phase before phase `i` in the cycle, `(i - 1) mod 4` with
the non-negative remainder. -/
def prevIndex (i : Nat) : Nat :=
  (((i : Int) - 1) % 4).toNat

/-- The action of the phase at index `i`, the empty string outside the table. -/
def actionAt (i : Nat) : String :=
  match phases[i]? with
  | some p => p.action
  | none => ""

/-- The shape of the state the controller keeps: the index stays inside the
table, the two handle variables only hold handles already given out, and the
active timers are exactly those the handle variables and flags account for. -/
structure Inv (s : State) : Prop where
  idx_lt : s.currentPhaseIndex < 4
  anim_lt : ∀ h, s.animationTimeoutId = some h → h < s.nextTimerId
  res_lt : ∀ h, s.resumeButtonTimeoutId = some h → h < s.nextTimerId
  shape :
    (s.timers = [] ∧ s.isRunning = false ∧ s.isPausedRequested = false) ∨
    (∃ a d, s.timers = [⟨a, .phaseTimeout, d⟩] ∧ s.animationTimeoutId = some a ∧
      s.resumeButtonTimeoutId ≠ some a ∧ s.isRunning = true) ∨
    (∃ r, s.timers = [⟨r, .idleGlyph, 1000⟩] ∧ s.resumeButtonTimeoutId = some r ∧
      s.isRunning = false ∧ s.isPausedRequested = true) ∨
    (∃ r a d, s.timers = [⟨r, .idleGlyph, 1000⟩, ⟨a, .phaseTimeout, d⟩] ∧
      s.resumeButtonTimeoutId = some r ∧ s.animationTimeoutId = some a ∧ a ≠ r ∧
      s.isRunning = true ∧ s.isPausedRequested = false)

theorem phases_length : phases.length = 4 := rfl

theorem phases_lookup (i : Nat) (h : i < 4) : ∃ p, phases[i]? = some p := by
  interval_cases i <;> simp [phases]

theorem inv_reset (s s1 : State) (hs : Inv s) (h : resetAnimationToStart s = some s1) :
    Inv s1 := by
  obtain ⟨idx, run, paused, aid, rid, txt, pt, aa, pc, timers, next⟩ := s
  obtain ⟨h1, h2, h3, h4⟩ := hs
  simp only at h1 h2 h3 h4
  simp [resetAnimationToStart, phases] at h
  subst h
  refine ⟨by simp, by simpa using h2, by simpa using h3, ?_⟩
  left
  rcases h4 with ⟨ht, -, -⟩ | ⟨a, d, ht, ha, hr, -⟩ | ⟨r, ht, hr, -, -⟩ | ⟨r, a, d, ht, hr, ha, hne, -, -⟩
  all_goals subst ht
  · cases aid <;> cases rid <;> simp [clearTimer]
  · subst ha
    cases rid <;> simp [clearTimer]
  · subst hr
    cases aid <;> simp [clearTimer]
  · subst ha hr
    simp [clearTimer]

theorem inv_resume (s s1 : State) (hs : Inv s) (h : resumeAnimation s = some s1) :
    Inv s1 := by
  obtain ⟨idx, run, paused, aid, rid, txt, pt, aa, pc, timers, next⟩ := s
  have hs0 := hs
  obtain ⟨h1, h2, h3, h4⟩ := hs
  simp only at h1 h2 h3 h4
  obtain ⟨p, hp⟩ := phases_lookup idx h1
  cases run
  · simp [resumeAnimation, startPhaseAnimation, hp] at h
    subst h
    refine ⟨by simpa using h1, ?_, ?_, ?_⟩
    · simp
    · intro h hh
      exact Nat.lt_succ_of_lt (h3 h hh)
    · right; left
      rcases h4 with ⟨ht, -, -⟩ | ⟨a, d, ht, ha, hr, hrun⟩ | ⟨r, ht, hr, -, -⟩ | ⟨r, a, d, ht, hr, ha, hne, hrun, -⟩
      · subst ht
        refine ⟨next, p.duration * 1000, ?_, rfl, ?_, rfl⟩
        · cases rid <;> simp [clearTimer]
        · intro hh
          exact absurd (h3 next hh) (lt_irrefl _)
      · simp at hrun
      · subst ht hr
        refine ⟨next, p.duration * 1000, ?_, rfl, ?_, rfl⟩
        · simp [clearTimer]
        · intro hh
          exact absurd (h3 next hh) (lt_irrefl _)
      · simp at hrun
  · simp [resumeAnimation] at h
    subst h
    exact hs0

theorem inv_pause (s : State) (hs : Inv s) : Inv (requestPause s) := by
  obtain ⟨idx, run, paused, aid, rid, txt, pt, aa, pc, timers, next⟩ := s
  have hs0 := hs
  obtain ⟨h1, h2, h3, h4⟩ := hs
  simp only at h1 h2 h3 h4
  cases run
  · simpa [requestPause] using hs0
  · refine ⟨by simpa [requestPause] using h1, by simpa [requestPause] using h2,
      by simpa [requestPause] using h3, ?_⟩
    right; left
    rcases h4 with ⟨-, hrun, -⟩ | ⟨a, d, ht, ha, hr, -⟩ | ⟨r, -, -, hrun, -⟩ | ⟨r, a, d, ht, hr, ha, hne, -, -⟩
    · simp at hrun
    · subst ht ha
      refine ⟨a, d, ?_, by simp [requestPause], by simpa [requestPause] using hr,
        by simp [requestPause]⟩
      cases rid with
      | none => simp [requestPause, clearTimer]
      | some r =>
        have hne : ¬ a = r := fun e => hr (by simp [e])
        simp [requestPause, clearTimer, hne]
    · simp at hrun
    · subst ht ha hr
      refine ⟨a, d, by simp [requestPause, clearTimer, hne], by simp [requestPause], ?_,
        by simp [requestPause]⟩
      simpa [requestPause] using fun e => hne e.symm

theorem inv_start (s s1 : State) (hs : Inv s) (h : startBreathing s = some s1) :
    Inv s1 := by
  obtain ⟨idx, run, paused, aid, rid, txt, pt, aa, pc, timers, next⟩ := s
  have hs0 := hs
  obtain ⟨h1, h2, h3, h4⟩ := hs
  simp only at h1 h2 h3 h4
  cases run
  · by_cases h0 : idx = 0
    · subst h0
      simp [startBreathing, resetAnimationToStart, startPhaseAnimation, phases] at h
      subst h
      refine ⟨by simp, by simpa using h2, by simpa using h3, ?_⟩
      left
      rcases h4 with ⟨ht, -, -⟩ | ⟨a, d, ht, ha, hr, hrun⟩ | ⟨r, ht, hr, -, -⟩ | ⟨r, a, d, ht, hr, ha, hne, hrun, -⟩
      · subst ht
        cases aid <;> cases rid <;> simp [clearTimer]
      · simp at hrun
      · subst ht hr
        cases aid <;> simp [clearTimer]
      · simp at hrun
    · obtain ⟨p, hp⟩ := phases_lookup idx h1
      simp [startBreathing, startPhaseAnimation, hp, h0] at h
      subst h
      refine ⟨by simpa using h1, by simp, ?_, ?_⟩
      · intro h hh
        exact Nat.lt_succ_of_lt (h3 h hh)
      · rcases h4 with ⟨ht, -, -⟩ | ⟨a, d, ht, ha, hr, hrun⟩ | ⟨r, ht, hr, -, -⟩ | ⟨r, a, d, ht, hr, ha, hne, hrun, -⟩
        · subst ht
          right; left
          refine ⟨next, p.duration * 1000, by simp, rfl, ?_, rfl⟩
          intro hh
          exact absurd (h3 next hh) (lt_irrefl _)
        · simp at hrun
        · subst ht hr
          right; right; right
          refine ⟨r, next, p.duration * 1000, by simp, rfl, rfl, ?_, rfl, rfl⟩
          exact (ne_of_lt (h3 r rfl)).symm
        · simp at hrun
  · simp [startBreathing] at h
    subst h
    exact hs0

theorem inv_toggle (s s1 : State) (hs : Inv s) (h : toggleBreathing s = some s1) :
    Inv s1 := by
  unfold toggleBreathing at h
  split at h
  · simp at h
    subst h
    exact inv_pause s hs
  · exact inv_resume s s1 hs h

theorem inv_phaseTimeoutCallback (computed : Position) (s s1 : State)
    (h1 : s.currentPhaseIndex < 4)
    (h2 : ∀ h, s.animationTimeoutId = some h → h < s.nextTimerId)
    (h3 : ∀ h, s.resumeButtonTimeoutId = some h → h < s.nextTimerId)
    (hrun : s.isRunning = true)
    (h4 : s.timers = [] ∨
      (∃ r, s.timers = [⟨r, .idleGlyph, 1000⟩] ∧ s.resumeButtonTimeoutId = some r ∧
        s.isPausedRequested = false))
    (h : phaseTimeoutCallback computed s = some s1) : Inv s1 := by
  obtain ⟨idx, run, paused, aid, rid, txt, pt, aa, pc, timers, next⟩ := s
  simp only at h1 h2 h3 h4 hrun
  subst hrun
  have hlt : (idx + 1) % 4 < 4 := Nat.mod_lt _ (by decide)
  obtain ⟨p, hp⟩ := phases_lookup ((idx + 1) % 4) hlt
  cases paused
  · simp [phaseTimeoutCallback, startPhaseAnimation, phases_length, hp] at h
    subst h
    refine ⟨by simpa using hlt, by simp, ?_, ?_⟩
    · intro h hh
      exact Nat.lt_succ_of_lt (h3 h hh)
    · rcases h4 with ht | ⟨r, ht, hr, -⟩
      · subst ht
        right; left
        refine ⟨next, p.duration * 1000, by simp, rfl, ?_, rfl⟩
        intro hh
        exact absurd (h3 next hh) (lt_irrefl _)
      · subst ht hr
        right; right; right
        refine ⟨r, next, p.duration * 1000, by simp, rfl, rfl, ?_, rfl, rfl⟩
        exact (ne_of_lt (h3 r rfl)).symm
  · simp [phaseTimeoutCallback, phases_length, hp] at h
    subst h
    refine ⟨by simpa using hlt, ?_, by simp, ?_⟩
    · intro h hh
      exact Nat.lt_succ_of_lt (h2 h hh)
    · rcases h4 with ht | ⟨r, -, -, hp⟩
      · subst ht
        right; right; left
        exact ⟨next, by simp, rfl, rfl, rfl⟩
      · simp at hp

theorem inv_fire (s s1 : State) (h : Nat) (computed : Position) (hs : Inv s)
    (hf : fireTimer h computed s = some s1) : Inv s1 := by
  obtain ⟨idx, run, paused, aid, rid, txt, pt, aa, pc, timers, next⟩ := s
  obtain ⟨h1, h2, h3, h4⟩ := hs
  simp only at h1 h2 h3 h4
  rcases h4 with ⟨ht, -, -⟩ | ⟨a, d, ht, ha, hr, hrun⟩ | ⟨r, ht, hr, hrun, hp⟩ |
    ⟨r, a, d, ht, hr, ha, hne, hrun, hp⟩
  · subst ht
    simp [fireTimer] at hf
  · subst ht ha hrun
    by_cases e : a = h
    · subst e
      simp [fireTimer] at hf
      exact inv_phaseTimeoutCallback computed _ s1 h1 h2 h3 rfl (Or.inl rfl) hf
    · simp [fireTimer, e] at hf
  · subst ht hr hrun hp
    by_cases e : r = h
    · subst e
      simp [fireTimer, idleGlyphCallback] at hf
      subst hf
      exact ⟨h1, h2, h3, Or.inl ⟨rfl, rfl, rfl⟩⟩
    · simp [fireTimer, e] at hf
  · subst ht hr ha hrun hp
    by_cases e : r = h
    · subst e
      simp [fireTimer, idleGlyphCallback, hne] at hf
      subst hf
      refine ⟨h1, h2, h3, Or.inr (Or.inl ⟨a, d, rfl, rfl, ?_, rfl⟩)⟩
      simpa using fun e => hne e.symm
    · by_cases e2 : a = h
      · subst e2
        simp [fireTimer, e] at hf
        exact inv_phaseTimeoutCallback computed _ s1 h1 h2 h3 rfl
          (Or.inr ⟨r, rfl, rfl, rfl⟩) hf
      · simp [fireTimer, e, e2] at hf

theorem inv_load (firstHandle : Nat) (s : State)
    (h : resetAnimationToStart (moduleInit firstHandle) = some s) : Inv s := by
  simp [resetAnimationToStart, moduleInit, clearTimer, phases] at h
  subst h
  exact ⟨by simp, by simp, by simp, Or.inl ⟨rfl, rfl, rfl⟩⟩

theorem reachable_inv (s : State) (h : Reachable s) : Inv s := by
  induction h with
  | load n s h => exact inv_load n s h
  | reset s s1 _ h ih => exact inv_reset s s1 ih h
  | start s s1 _ h ih => exact inv_start s s1 ih h
  | pause s _ ih => exact inv_pause s ih
  | resume s s1 _ h ih => exact inv_resume s s1 ih h
  | toggle s s1 _ h ih => exact inv_toggle s s1 ih h
  | fire s s1 h c _ hf ih => exact inv_fire s s1 h c ih hf

theorem reachable_runEvents (es : List Event) (s s1 : State) (hs : Reachable s)
    (h : runEvents es s = some s1) : Reachable s1 := by
  induction es generalizing s with
  | nil =>
    simp [runEvents] at h
    subst h
    exact hs
  | cons e rest ih =>
    simp only [runEvents, Option.bind_eq_some] at h
    obtain ⟨s2, h2, h3⟩ := h
    refine ih s2 ?_ h3
    cases e with
    | reset => exact Reachable.reset s s2 hs h2
    | start => exact Reachable.start s s2 hs h2
    | pause =>
      simp [step] at h2
      subst h2
      exact Reachable.pause s hs
    | resume => exact Reachable.resume s s2 hs h2
    | toggle => exact Reachable.toggle s s2 hs h2
    | fire h c => exact Reachable.fire s s2 h c hs h2

theorem reachable_loaded : Reachable loaded :=
  Reachable.load 1 loaded (by decide)

theorem reachable_animating0 : Reachable animating0 :=
  Reachable.resume loaded animating0 reachable_loaded (by decide)

theorem reachable_tracked (s : State) (h : Reachable s) : Tracked s := by
  obtain ⟨-, -, -, h4⟩ := reachable_inv s h
  intro t ht
  rcases h4 with ⟨e, -, -⟩ | ⟨a, d, e, ha, -, -⟩ | ⟨r, e, hr, -, -⟩ | ⟨r, a, d, e, hr, ha, -, -, -⟩
  · simp [e] at ht
  · simp [e] at ht
    subst ht
    simp [ha]
  · simp [e] at ht
    subst ht
    simp [hr]
  · simp [e] at ht
    rcases ht with ht | ht <;> subst ht <;> simp [ha, hr]

/-- C1 (as the code behaves): from every Idle state (index 0, not running, no
pause requested, no timer active) `startBreathing` returns with the controller
still stopped: `isRunning` is false, the label is the idle glyph, the point is
at the reset corner of `hold-bottom` and no timer is active. The reset that
`startBreathing` runs at index 0 clears the `isRunning` flag it has just set,
so `startPhaseAnimation` returns at its guard. -/
theorem startBreathing_idle_stays_idle (s : State)
    (hidx : s.currentPhaseIndex = 0) (hrun : s.isRunning = false)
    (hpause : s.isPausedRequested = false) (htimers : s.timers = []) :
    ∃ s1, startBreathing s = some s1 ∧ s1.isRunning = false ∧
      s1.currentPhaseIndex = 0 ∧ s1.phaseText = "▶" ∧ s1.phaseText ≠ "INHALE" ∧
      s1.point.left = (calculateArrowPosition "hold-bottom").left ∧
      s1.point.top = (calculateArrowPosition "hold-bottom").top ∧
      s1.point.top ≠ (calculateArrowPosition "inhale").top ∧
      phaseTimers s1 = [] ∧ s1.timers = [] := by
  obtain ⟨idx, run, paused, aid, rid, txt, pt, aa, pc, timers, next⟩ := s
  simp only at hidx hrun hpause htimers
  subst hidx hrun hpause htimers
  have hclr : clearTimer rid (clearTimer aid []) = [] := by
    cases aid <;> cases rid <;> simp [clearTimer]
  simp [startBreathing, resetAnimationToStart, startPhaseAnimation, phases, phaseTimers, hclr]
  decide

theorem startBreathing_idle_stays_idle_witness :
    loaded.currentPhaseIndex = 0 ∧ loaded.isRunning = false ∧
    loaded.isPausedRequested = false ∧ loaded.timers = [] ∧
    ∃ s1, startBreathing loaded = some s1 ∧ s1.isRunning = false ∧
      s1.currentPhaseIndex = 0 ∧ s1.phaseText = "▶" ∧ s1.phaseText ≠ "INHALE" ∧
      s1.point.left = (calculateArrowPosition "hold-bottom").left ∧
      s1.point.top = (calculateArrowPosition "hold-bottom").top ∧
      s1.point.top ≠ (calculateArrowPosition "inhale").top ∧
      phaseTimers s1 = [] ∧ s1.timers = [] :=
  ⟨by decide, by decide, by decide, by decide,
    startBreathing_idle_stays_idle loaded (by decide) (by decide) (by decide) (by decide)⟩

theorem clearTimer_tracked (s : State) (h : Tracked s) :
    clearTimer s.resumeButtonTimeoutId (clearTimer s.animationTimeoutId s.timers) = [] := by
  obtain ⟨idx, run, paused, aid, rid, txt, pt, aa, pc, timers, next⟩ := s
  simp only [Tracked] at h
  simp only
  have key : ∀ t ∈ timers, aid = some t.id ∨ rid = some t.id := by
    intro t ht
    cases hk : t.kind with
    | phaseTimeout => exact Or.inl ((h t ht).1 hk)
    | idleGlyph => exact Or.inr ((h t ht).2 hk)
  cases aid with
  | none =>
    cases rid with
    | none =>
      cases timers with
      | nil => rfl
      | cons t ts => simpa using key t (by simp)
    | some r =>
      simp only [clearTimer, List.filter_eq_nil_iff]
      intro t ht
      have e := key t ht
      simp at e
      simp [e]
  | some a =>
    cases rid with
    | none =>
      simp only [clearTimer, List.filter_eq_nil_iff]
      intro t ht
      have e := key t ht
      simp at e
      simp [e]
    | some r =>
      simp only [clearTimer, List.filter_eq_nil_iff, List.mem_filter]
      rintro t ⟨ht, hne⟩
      rcases key t ht with e | e
      · simp at e
        simp [e] at hne
      · simp at e
        simp [e]

/-- C2: in every state whose active timers are the ones held by the two handle
variables (every reachable state is one, `reachable_tracked`), whatever the
index, the flags and the active timers, `resetAnimationToStart` returns, with
index 0, both flags false, the idle glyph as label, no timer of either kind
active, and the point at the target of the last phase,
`calculateArrowPosition` of `hold-bottom`, which is left `-8px`, top `292px`. -/
theorem resetAnimationToStart_result (s : State) (h : Tracked s) :
    ∃ s1, resetAnimationToStart s = some s1 ∧
      s1.currentPhaseIndex = 0 ∧ s1.isRunning = false ∧ s1.isPausedRequested = false ∧
      s1.phaseText = "▶" ∧ phaseTimers s1 = [] ∧ idleTimers s1 = [] ∧ s1.timers = [] ∧
      (∃ last, phases[3]? = some last ∧ last.action = "hold-bottom" ∧
        s1.point.left = (calculateArrowPosition last.action).left ∧
        s1.point.top = (calculateArrowPosition last.action).top) ∧
      s1.point.left = "-8px" ∧ s1.point.top = "292px" := by
  have hclr := clearTimer_tracked s h
  obtain ⟨idx, run, paused, aid, rid, txt, pt, aa, pc, timers, next⟩ := s
  simp only at hclr
  simp [resetAnimationToStart, phases, phaseTimers, idleTimers, hclr]
  decide

theorem resetAnimationToStart_result_witness :
    Tracked animating0 ∧
    ∃ s1, resetAnimationToStart animating0 = some s1 ∧
      s1.currentPhaseIndex = 0 ∧ s1.isRunning = false ∧ s1.isPausedRequested = false ∧
      s1.phaseText = "▶" ∧ phaseTimers s1 = [] ∧ idleTimers s1 = [] ∧ s1.timers = [] ∧
      (∃ last, phases[3]? = some last ∧ last.action = "hold-bottom" ∧
        s1.point.left = (calculateArrowPosition last.action).left ∧
        s1.point.top = (calculateArrowPosition last.action).top) ∧
      s1.point.left = "-8px" ∧ s1.point.top = "292px" :=
  ⟨reachable_tracked animating0 reachable_animating0,
    resetAnimationToStart_result animating0 (reachable_tracked animating0 reachable_animating0)⟩

/-- C3: in every reachable state at most one phase-timeout timer and at most
one idle-glyph timer is active. -/
theorem at_most_one_timer_per_kind (s : State) (h : Reachable s) :
    (phaseTimers s).length ≤ 1 ∧ (idleTimers s).length ≤ 1 := by
  obtain ⟨-, -, -, h4⟩ := reachable_inv s h
  rcases h4 with ⟨e, -, -⟩ | ⟨a, d, e, -, -, -⟩ | ⟨r, e, -, -, -⟩ | ⟨r, a, d, e, -, -, -, -, -⟩ <;>
    simp [phaseTimers, idleTimers, e]

theorem reachable_bothPending : Reachable bothPending :=
  reachable_runEvents bothPendingEvents loaded bothPending reachable_loaded (by decide)

theorem reachable_animating3 : Reachable animating3 :=
  reachable_runEvents animating3Events loaded animating3 reachable_loaded (by decide)

theorem at_most_one_timer_per_kind_witness :
    Reachable bothPending ∧
    (phaseTimers bothPending).length = 1 ∧ (idleTimers bothPending).length = 1 ∧
    (phaseTimers bothPending).length ≤ 1 ∧ (idleTimers bothPending).length ≤ 1 :=
  ⟨reachable_bothPending, by decide, by decide,
    at_most_one_timer_per_kind bothPending reachable_bothPending⟩

/-- C4: for a reachable state that is animating phase `i` (so `i < 4`, and the
phase's timer `t` is active), after `requestPause` the timer `t` is still the
one active phase-timeout timer, and when it fires the controller has
`isRunning = false`, index `(i + 1) % 4`, the label still `⏸`, the point pinned
without transition where it was rendered, and exactly one timer active: an
idle-glyph timer with delay `1000` ms, whose firing sets the label to `▶` and
clears `isPausedRequested`. -/
theorem pause_completes_at_phase_end (s : State) (i : Nat) (h : Reachable s)
    (hrun : s.isRunning = true) (hidx : s.currentPhaseIndex = i) :
    i < 4 ∧ ∃ t, t ∈ s.timers ∧ phaseTimers (requestPause s) = [t] ∧
      ∀ computed, ∃ s2, fireTimer t.id computed (requestPause s) = some s2 ∧
        s2.isRunning = false ∧ s2.currentPhaseIndex = (i + 1) % 4 ∧
        s2.phaseText = "⏸" ∧ s2.isPausedRequested = true ∧
        s2.point = ⟨"none", computed.left, computed.top⟩ ∧
        ∃ u, s2.timers = [u] ∧ u.kind = TimerKind.idleGlyph ∧ u.delay = 1000 ∧
          ∀ computed2, ∃ s3, fireTimer u.id computed2 s2 = some s3 ∧
            s3.phaseText = "▶" ∧ s3.isPausedRequested = false ∧
            s3.isRunning = false ∧ s3.currentPhaseIndex = (i + 1) % 4 ∧ s3.timers = [] := by
  obtain ⟨h1, h2, h3, h4⟩ := reachable_inv s h
  obtain ⟨idx, run, paused, aid, rid, txt, pt, aa, pc, timers, next⟩ := s
  simp only at h1 h2 h3 h4 hrun hidx
  subst hrun hidx
  have hlt : (idx + 1) % 4 < 4 := Nat.mod_lt _ (by decide)
  obtain ⟨p, hp⟩ := phases_lookup ((idx + 1) % 4) hlt
  refine ⟨h1, ?_⟩
  rcases h4 with ⟨-, hr, -⟩ | ⟨a, d, e, ha, hr, -⟩ | ⟨r, -, -, hr, -⟩ |
    ⟨r, a, d, e, hr, ha, hne, -, -⟩
  · simp at hr
  · subst e ha
    have hclr : clearTimer rid [⟨a, .phaseTimeout, d⟩] = [⟨a, .phaseTimeout, d⟩] := by
      cases rid with
      | none => rfl
      | some r =>
        have hne : ¬ a = r := fun e => hr (by simp [e])
        simp [clearTimer, hne]
    refine ⟨⟨a, .phaseTimeout, d⟩, by simp, by simp [requestPause, phaseTimers, hclr], ?_⟩
    intro computed
    simp [requestPause, hclr, fireTimer, phaseTimeoutCallback, phases_length, hp,
      idleGlyphCallback]
  · simp at hr
  · subst e ha hr
    have hclr : clearTimer (some r) [⟨r, .idleGlyph, 1000⟩, ⟨a, .phaseTimeout, d⟩] =
        [⟨a, .phaseTimeout, d⟩] := by
      simp [clearTimer, hne]
    refine ⟨⟨a, .phaseTimeout, d⟩, by simp, by simp [requestPause, phaseTimers, hclr], ?_⟩
    intro computed
    simp [requestPause, hclr, fireTimer, phaseTimeoutCallback, phases_length, hp,
      idleGlyphCallback]

theorem pause_completes_at_phase_end_witness :
    Reachable animating3 ∧ animating3.isRunning = true ∧ animating3.currentPhaseIndex = 3 ∧
    (3 < 4 ∧ ∃ t, t ∈ animating3.timers ∧ phaseTimers (requestPause animating3) = [t] ∧
      ∀ computed, ∃ s2, fireTimer t.id computed (requestPause animating3) = some s2 ∧
        s2.isRunning = false ∧ s2.currentPhaseIndex = (3 + 1) % 4 ∧
        s2.phaseText = "⏸" ∧ s2.isPausedRequested = true ∧
        s2.point = ⟨"none", computed.left, computed.top⟩ ∧
        ∃ u, s2.timers = [u] ∧ u.kind = TimerKind.idleGlyph ∧ u.delay = 1000 ∧
          ∀ computed2, ∃ s3, fireTimer u.id computed2 s2 = some s3 ∧
            s3.phaseText = "▶" ∧ s3.isPausedRequested = false ∧
            s3.isRunning = false ∧ s3.currentPhaseIndex = (3 + 1) % 4 ∧ s3.timers = []) :=
  ⟨reachable_animating3, by decide, by decide,
    pause_completes_at_phase_end animating3 3 reachable_animating3 (by decide) (by decide)⟩

/-- C5: in every reachable running state `requestPause` changes only
`isPausedRequested` (to true), the label (to `⏸`) and the active timers, of
which it removes the idle-glyph timer and nothing else: `isRunning` stays true,
the index, the point's position and transition and both handle variables are
unchanged, and the phase-timeout timer stays active with the same handle and
the same delay. -/
theorem requestPause_frame (s : State) (h : Reachable s) (hrun : s.isRunning = true) :
    requestPause s =
        { s with isPausedRequested := true, phaseText := "⏸", timers := phaseTimers s } ∧
      (requestPause s).isRunning = true ∧
      (requestPause s).currentPhaseIndex = s.currentPhaseIndex ∧
      (requestPause s).point = s.point ∧
      idleTimers (requestPause s) = [] ∧
      phaseTimers (requestPause s) = phaseTimers s ∧
      ∃ t, t ∈ s.timers ∧ t.kind = TimerKind.phaseTimeout ∧ (requestPause s).timers = [t] := by
  obtain ⟨h1, h2, h3, h4⟩ := reachable_inv s h
  obtain ⟨idx, run, paused, aid, rid, txt, pt, aa, pc, timers, next⟩ := s
  simp only at h1 h2 h3 h4 hrun
  subst hrun
  rcases h4 with ⟨-, hr, -⟩ | ⟨a, d, e, ha, hr, -⟩ | ⟨r, -, -, hr, -⟩ |
    ⟨r, a, d, e, hr, ha, hne, -, -⟩
  · simp at hr
  · subst e ha
    have hclr : clearTimer rid [⟨a, .phaseTimeout, d⟩] = [⟨a, .phaseTimeout, d⟩] := by
      cases rid with
      | none => rfl
      | some r =>
        have hne : ¬ a = r := fun e => hr (by simp [e])
        simp [clearTimer, hne]
    simp [requestPause, phaseTimers, idleTimers, hclr]
  · simp at hr
  · subst e ha hr
    have hclr : clearTimer (some r) [⟨r, .idleGlyph, 1000⟩, ⟨a, .phaseTimeout, d⟩] =
        [⟨a, .phaseTimeout, d⟩] := by
      simp [clearTimer, hne]
    simp [requestPause, phaseTimers, idleTimers, hclr]

theorem requestPause_frame_witness :
    Reachable bothPending ∧ bothPending.isRunning = true ∧
    (requestPause bothPending =
        { bothPending with isPausedRequested := true, phaseText := "⏸",
                           timers := phaseTimers bothPending } ∧
      (requestPause bothPending).isRunning = true ∧
      (requestPause bothPending).currentPhaseIndex = bothPending.currentPhaseIndex ∧
      (requestPause bothPending).point = bothPending.point ∧
      idleTimers (requestPause bothPending) = [] ∧
      phaseTimers (requestPause bothPending) = phaseTimers bothPending ∧
      ∃ t, t ∈ bothPending.timers ∧ t.kind = TimerKind.phaseTimeout ∧
        (requestPause bothPending).timers = [t]) :=
  ⟨reachable_bothPending, by decide,
    requestPause_frame bothPending reachable_bothPending (by decide)⟩

theorem phases_duration (i : Nat) (p : Phase) (h : phases[i]? = some p) : p.duration = 4 := by
  have hall : ∀ q ∈ phases, q.duration = 4 := by decide
  exact hall p (List.getElem?_mem h)

theorem resumeAnimation_state (s : State) (j : Nat) (h : Reachable s)
    (hrun : s.isRunning = false) (hidx : s.currentPhaseIndex = j) :
    ∃ p s1, phases[j]? = some p ∧ resumeAnimation s = some s1 ∧
      s1.isRunning = true ∧ s1.isPausedRequested = false ∧ s1.currentPhaseIndex = j ∧
      s1.phaseText = p.name ∧
      s1.point.left = (calculateArrowPosition p.action).left ∧
      s1.point.top = (calculateArrowPosition p.action).top ∧
      s1.point.transition = linearTransition p.duration ∧
      s1.timers = [⟨s.nextTimerId, .phaseTimeout, p.duration * 1000⟩] ∧
      s1.animationTimeoutId = some s.nextTimerId ∧
      idleTimers s1 = [] := by
  obtain ⟨h1, h2, h3, h4⟩ := reachable_inv s h
  obtain ⟨idx, run, paused, aid, rid, txt, pt, aa, pc, timers, next⟩ := s
  simp only at h1 h2 h3 h4 hrun hidx
  subst hrun hidx
  obtain ⟨p, hp⟩ := phases_lookup idx h1
  refine ⟨p, ?_⟩
  rcases h4 with ⟨e, -, -⟩ | ⟨a, d, -, -, -, hr⟩ | ⟨r, e, hr, -, -⟩ |
    ⟨r, a, d, -, -, -, -, hr, -⟩
  · subst e
    have hclr : clearTimer rid [] = [] := by cases rid <;> rfl
    simp [resumeAnimation, startPhaseAnimation, hp, hclr, idleTimers]
  · simp at hr
  · subst e hr
    simp [resumeAnimation, startPhaseAnimation, hp, clearTimer, idleTimers]
  · simp at hr

/-- C6: in every reachable state that is not running, with index `j`,
`resumeAnimation` returns with `isRunning = true`, `isPausedRequested = false`,
the index still `j`, the label `phases[j].name`, the point targeted at
`calculateArrowPosition(phases[j].action)`, the transition set to the text
`left Ds linear, top Ds linear` with `D` the decimal digits of
`phases[j].duration` (which is 4, so the text is `left 4s linear, top 4s
linear`), and exactly one timer active: a phase-timeout timer with delay
`phases[j].duration * 1000` ms, which is 4000 (so no idle-glyph timer). -/
theorem resumeAnimation_result (s : State) (j : Nat) (h : Reachable s)
    (hrun : s.isRunning = false) (hidx : s.currentPhaseIndex = j) :
    ∃ p s1, phases[j]? = some p ∧ resumeAnimation s = some s1 ∧
      s1.isRunning = true ∧ s1.isPausedRequested = false ∧ s1.currentPhaseIndex = j ∧
      s1.phaseText = p.name ∧
      s1.point.left = (calculateArrowPosition p.action).left ∧
      s1.point.top = (calculateArrowPosition p.action).top ∧
      s1.point.transition =
        "left " ++ toString p.duration ++ "s linear, top " ++ toString p.duration ++
          "s linear" ∧
      p.duration = 4 ∧
      s1.point.transition = "left 4s linear, top 4s linear" ∧
      s1.timers = [⟨s.nextTimerId, .phaseTimeout, p.duration * 1000⟩] ∧
      s1.timers = [⟨s.nextTimerId, .phaseTimeout, 4000⟩] ∧
      s1.animationTimeoutId = some s.nextTimerId ∧
      idleTimers s1 = [] := by
  obtain ⟨p, s1, a1, a2, a3, a4, a5, a6, a7, a8, a9, a10, a11, a12⟩ :=
    resumeAnimation_state s j h hrun hidx
  have hd := phases_duration j p a1
  refine ⟨p, s1, a1, a2, a3, a4, a5, a6, a7, a8, a9, hd, ?_, a10, ?_, a11, a12⟩
  · rw [a9, hd]
    decide
  · rw [a10, hd]

theorem reachable_pausedPending1 : Reachable pausedPending1 :=
  reachable_runEvents pausedPending1Events loaded pausedPending1 reachable_loaded (by decide)

theorem resumeAnimation_result_witness :
    Reachable pausedPending1 ∧ pausedPending1.isRunning = false ∧
    pausedPending1.currentPhaseIndex = 1 ∧ idleTimers pausedPending1 ≠ [] ∧
    (resumeAnimation pausedPending1).map
        (fun s1 => (s1.phaseText, s1.point.left, s1.point.top, s1.point.transition, s1.timers))
      = some ("HOLD", "292px", "-8px", "left 4s linear, top 4s linear",
          [⟨3, .phaseTimeout, 4000⟩]) ∧
    ∃ p s1, phases[1]? = some p ∧ resumeAnimation pausedPending1 = some s1 ∧
      s1.isRunning = true ∧ s1.isPausedRequested = false ∧ s1.currentPhaseIndex = 1 ∧
      s1.phaseText = p.name ∧
      s1.point.left = (calculateArrowPosition p.action).left ∧
      s1.point.top = (calculateArrowPosition p.action).top ∧
      s1.point.transition =
        "left " ++ toString p.duration ++ "s linear, top " ++ toString p.duration ++
          "s linear" ∧
      p.duration = 4 ∧
      s1.point.transition = "left 4s linear, top 4s linear" ∧
      s1.timers = [⟨pausedPending1.nextTimerId, .phaseTimeout, p.duration * 1000⟩] ∧
      s1.timers = [⟨pausedPending1.nextTimerId, .phaseTimeout, 4000⟩] ∧
      s1.animationTimeoutId = some pausedPending1.nextTimerId ∧
      idleTimers s1 = [] :=
  ⟨reachable_pausedPending1, by decide, by decide, by decide, by decide,
    resumeAnimation_result pausedPending1 1 reachable_pausedPending1 (by decide) (by decide)⟩

theorem firePhaseTimeout_step (computed : Position) (s : State) (hs : Inv s)
    (hrun : s.isRunning = true) (hpause : s.isPausedRequested = false) :
    ∃ s1 p, firePhaseTimeout computed s = some s1 ∧ Inv s1 ∧
      s1.isRunning = true ∧ s1.isPausedRequested = false ∧
      s1.currentPhaseIndex = (s.currentPhaseIndex + 1) % 4 ∧
      phases[s1.currentPhaseIndex]? = some p ∧ s1.phaseText = p.name ∧
      s1.point.left = (calculateArrowPosition p.action).left ∧
      s1.point.top = (calculateArrowPosition p.action).top ∧
      s1.point.transition = linearTransition p.duration := by
  have hs0 := hs
  obtain ⟨h1, h2, h3, h4⟩ := hs
  have hlt : (s.currentPhaseIndex + 1) % 4 < 4 := Nat.mod_lt _ (by decide)
  obtain ⟨p, hp⟩ := phases_lookup _ hlt
  have key : ∃ a, firePhaseTimeout computed s = fireTimer a computed s ∧
      ∃ s1, fireTimer a computed s = some s1 ∧
      s1.isRunning = true ∧ s1.isPausedRequested = false ∧
      s1.currentPhaseIndex = (s.currentPhaseIndex + 1) % 4 ∧
      s1.phaseText = p.name ∧
      s1.point.left = (calculateArrowPosition p.action).left ∧
      s1.point.top = (calculateArrowPosition p.action).top ∧
      s1.point.transition = linearTransition p.duration := by
    obtain ⟨idx, run, paused, aid, rid, txt, pt, aa, pc, timers, next⟩ := s
    simp only at h1 h2 h3 h4 hrun hpause hp
    subst hrun hpause
    rcases h4 with ⟨-, hr, -⟩ | ⟨a, d, e, ha, hr, -⟩ | ⟨r, -, -, hr, -⟩ |
      ⟨r, a, d, e, hr, ha, hne, -, -⟩
    · simp at hr
    · subst e
      refine ⟨a, by simp [firePhaseTimeout], ?_⟩
      simp [fireTimer, phaseTimeoutCallback, startPhaseAnimation, phases_length, hp]
    · simp at hr
    · subst e
      have hne2 : ¬ r = a := fun e => hne e.symm
      refine ⟨a, by simp [firePhaseTimeout], ?_⟩
      simp [fireTimer, phaseTimeoutCallback, startPhaseAnimation, phases_length, hp, hne2]
  obtain ⟨a, e1, s1, e2, r1, r2, r3, r4, r5, r6, r7⟩ := key
  exact ⟨s1, p, e1.trans e2, inv_fire s s1 a computed hs0 e2, r1, r2, r3, by rw [r3]; exact hp,
    r4, r5, r6, r7⟩

theorem firePhaseTimeouts_steps (cs : List Position) (s : State) (hs : Inv s)
    (hrun : s.isRunning = true) (hpause : s.isPausedRequested = false) :
    ∃ s1, firePhaseTimeouts cs s = some s1 ∧
      s1.isRunning = true ∧ s1.isPausedRequested = false ∧
      s1.currentPhaseIndex = (s.currentPhaseIndex + cs.length) % 4 ∧
      ((cs ≠ [] ∨ ∃ q, phases[s.currentPhaseIndex]? = some q ∧ s.phaseText = q.name) →
        ∃ p, phases[s1.currentPhaseIndex]? = some p ∧ s1.phaseText = p.name) ∧
      (cs ≠ [] → ∃ p, phases[s1.currentPhaseIndex]? = some p ∧
        s1.point.left = (calculateArrowPosition p.action).left ∧
        s1.point.top = (calculateArrowPosition p.action).top ∧
        s1.point.transition = linearTransition p.duration) := by
  induction cs generalizing s with
  | nil =>
    refine ⟨s, rfl, hrun, hpause, ?_, ?_, ?_⟩
    · simpa using (Nat.mod_eq_of_lt hs.idx_lt).symm
    · rintro (h | h)
      · exact absurd rfl h
      · exact h
    · intro h
      exact absurd rfl h
  | cons c rest ih =>
    obtain ⟨s1, p, e1, i1, r1, r2, r3, r4, r5, r6, r7, r8⟩ :=
      firePhaseTimeout_step c s hs hrun hpause
    obtain ⟨s2, e2, q1, q2, q3, q4, q5⟩ := ih s1 i1 r1 r2
    refine ⟨s2, by simp [firePhaseTimeouts, e1, e2], q1, q2, ?_, ?_, ?_⟩
    · rw [q3, r3, List.length_cons]
      omega
    · intro _
      exact q4 (Or.inr ⟨p, r4, r5⟩)
    · intro _
      cases rest with
      | nil =>
        simp [firePhaseTimeouts] at e2
        subst e2
        exact ⟨p, r4, r6, r7, r8⟩
      | cons c2 rest2 => exact q5 (by simp)

/-- C7: from a reachable running state at index `i` with no pause requested,
the phase-timeout callback can fire `n` times in a row, and that leaves the
controller running, with no pause requested, at index `(i + n) % 4`. Once it
has fired at least once (or if the label showed phase `i` before), the label
is `phases[(i + n) % 4].name`, and after at least one firing the point is
targeted at that phase's corner with that phase's duration. From index 0 the
action reached after `n` firings is the `n % 4`-th of inhale, hold-top, exhale,
hold-bottom, and after a multiple of 4 firings the index is `i` again. -/
theorem phase_cycle (s : State) (i : Nat) (cs : List Position) (h : Reachable s)
    (hrun : s.isRunning = true) (hpause : s.isPausedRequested = false)
    (hidx : s.currentPhaseIndex = i) :
    ∃ s1 p, firePhaseTimeouts cs s = some s1 ∧
      s1.isRunning = true ∧ s1.isPausedRequested = false ∧
      s1.currentPhaseIndex = (i + cs.length) % 4 ∧
      phases[(i + cs.length) % 4]? = some p ∧
      ((cs ≠ [] ∨ ∃ q, phases[i]? = some q ∧ s.phaseText = q.name) →
        s1.phaseText = p.name) ∧
      (cs ≠ [] → s1.point.left = (calculateArrowPosition p.action).left ∧
        s1.point.top = (calculateArrowPosition p.action).top ∧
        s1.point.transition = linearTransition p.duration) ∧
      phases.map (fun q => q.action) = ["inhale", "hold-top", "exhale", "hold-bottom"] ∧
      (i = 0 → some p.action =
        ["inhale", "hold-top", "exhale", "hold-bottom"][cs.length % 4]?) ∧
      (cs.length % 4 = 0 → s1.currentPhaseIndex = i) := by
  have hs := reachable_inv s h
  subst hidx
  obtain ⟨s1, e, q1, q2, q3, q4, q5⟩ := firePhaseTimeouts_steps cs s hs hrun hpause
  have hlt : (s.currentPhaseIndex + cs.length) % 4 < 4 := Nat.mod_lt _ (by decide)
  obtain ⟨p, hp⟩ := phases_lookup _ hlt
  refine ⟨s1, p, e, q1, q2, q3, hp, ?_, ?_, rfl, ?_, ?_⟩
  · intro hh
    obtain ⟨p2, e2, e3⟩ := q4 hh
    rw [q3, hp] at e2
    cases e2
    exact e3
  · intro hh
    obtain ⟨p2, e2, e3⟩ := q5 hh
    rw [q3, hp] at e2
    cases e2
    exact e3
  · intro h0
    rw [h0, Nat.zero_add] at hp
    have h4 : cs.length % 4 < 4 := Nat.mod_lt _ (by decide)
    revert hp
    generalize cs.length % 4 = k at h4
    interval_cases k <;> simp [phases] <;> rintro rfl <;> rfl
  · intro h4
    have := hs.idx_lt
    rw [q3]
    omega

theorem phase_cycle_witness :
    Reachable animating0 ∧ animating0.isRunning = true ∧
    animating0.isPausedRequested = false ∧ animating0.currentPhaseIndex = 0 ∧
    (firePhaseTimeouts fiveReads animating0).map (fun s1 => (s1.currentPhaseIndex, s1.phaseText))
      = some (1, "HOLD") ∧
    ∃ s1 p, firePhaseTimeouts fiveReads animating0 = some s1 ∧
      s1.isRunning = true ∧ s1.isPausedRequested = false ∧
      s1.currentPhaseIndex = (0 + fiveReads.length) % 4 ∧
      phases[(0 + fiveReads.length) % 4]? = some p ∧
      ((fiveReads ≠ [] ∨ ∃ q, phases[0]? = some q ∧ animating0.phaseText = q.name) →
        s1.phaseText = p.name) ∧
      (fiveReads ≠ [] → s1.point.left = (calculateArrowPosition p.action).left ∧
        s1.point.top = (calculateArrowPosition p.action).top ∧
        s1.point.transition = linearTransition p.duration) ∧
      phases.map (fun q => q.action) = ["inhale", "hold-top", "exhale", "hold-bottom"] ∧
      (0 = 0 → some p.action =
        ["inhale", "hold-top", "exhale", "hold-bottom"][fiveReads.length % 4]?) ∧
      (fiveReads.length % 4 = 0 → s1.currentPhaseIndex = 0) :=
  ⟨reachable_animating0, by decide, by decide, by decide, by decide,
    phase_cycle animating0 0 fiveReads reachable_animating0 (by decide) (by decide) (by decide)⟩

/-- C8: `calculateArrowPosition` depends on its action argument alone and sends
the four actions to the four corners of the square path: inhale to
`(-8px, -8px)`, hold-top to `(292px, -8px)`, exhale to `(292px, 292px)`,
hold-bottom to `(-8px, 292px)`. Each coordinate is `borderThickness -
pointRadius = -8` or `visualSquareSize + borderThickness - pointRadius = 292`,
rendered with `px`, and the four results are pairwise distinct. -/
theorem calculateArrowPosition_corners :
    calculateArrowPosition "inhale" = ⟨"-8px", "-8px"⟩ ∧
    calculateArrowPosition "hold-top" = ⟨"292px", "-8px"⟩ ∧
    calculateArrowPosition "exhale" = ⟨"292px", "292px"⟩ ∧
    calculateArrowPosition "hold-bottom" = ⟨"-8px", "292px"⟩ ∧
    borderThickness - pointRadius = -8 ∧
    visualSquareSize + borderThickness - pointRadius = 292 ∧
    (∀ a ∈ ["inhale", "hold-top", "exhale", "hold-bottom"],
      ((targetCoords a).1 = borderThickness - pointRadius ∨
        (targetCoords a).1 = visualSquareSize + borderThickness - pointRadius) ∧
      ((targetCoords a).2 = borderThickness - pointRadius ∨
        (targetCoords a).2 = visualSquareSize + borderThickness - pointRadius) ∧
      calculateArrowPosition a = ⟨px (targetCoords a).1, px (targetCoords a).2⟩) ∧
    (["inhale", "hold-top", "exhale", "hold-bottom"].map calculateArrowPosition).Nodup ∧
    (["inhale", "hold-top", "exhale", "hold-bottom"].map targetCoords).Nodup := by
  decide

/-- C9: in every running state `startBreathing` returns the state unchanged
(index, flags, handle variables, label, point, active timers), however many
times it is called, so no further phase-timeout timer is set. -/
theorem startBreathing_running_noop (s : State) (n : Nat) (hrun : s.isRunning = true) :
    startBreathing s = some s ∧
      Nat.iterate (fun o => Option.bind o startBreathing) n (some s) = some s ∧
      ∀ s1, Nat.iterate (fun o => Option.bind o startBreathing) n (some s) = some s1 →
        phaseTimers s1 = phaseTimers s := by
  have h1 : startBreathing s = some s := by simp [startBreathing, hrun]
  have h2 : Nat.iterate (fun o => Option.bind o startBreathing) n (some s) = some s := by
    induction n with
    | zero => rfl
    | succ k ih => rw [Function.iterate_succ_apply]; simpa [h1] using ih
  refine ⟨h1, h2, ?_⟩
  intro s1 e
  rw [h2] at e
  cases e
  rfl

theorem startBreathing_running_noop_witness :
    animating0.isRunning = true ∧
    startBreathing animating0 = some animating0 ∧
      Nat.iterate (fun o => Option.bind o startBreathing) 3 (some animating0)
        = some animating0 ∧
      ∀ s1, Nat.iterate (fun o => Option.bind o startBreathing) 3 (some animating0) = some s1 →
        phaseTimers s1 = phaseTimers animating0 :=
  ⟨by decide, startBreathing_running_noop animating0 3 (by decide)⟩

/-- C10: in every state `toggleBreathing` gives the state `requestPause` gives
when `isRunning` is true and the result `resumeAnimation` gives when
`isRunning` is false. -/
theorem toggleBreathing_eq (s : State) :
    toggleBreathing s =
        (if s.isRunning = true then some (requestPause s) else resumeAnimation s) ∧
      (s.isRunning = true → toggleBreathing s = some (requestPause s)) ∧
      (s.isRunning = false → toggleBreathing s = resumeAnimation s) := by
  refine ⟨rfl, ?_, ?_⟩
  · intro h
    simp [toggleBreathing, h]
  · intro h
    simp [toggleBreathing, h]

theorem toggleBreathing_eq_witness :
    (animating0.isRunning = true ∧
      toggleBreathing animating0 = some (requestPause animating0)) ∧
    (pausedPending1.isRunning = false ∧
      toggleBreathing pausedPending1 = resumeAnimation pausedPending1) :=
  ⟨⟨by decide, (toggleBreathing_eq animating0).2.1 (by decide)⟩,
    ⟨by decide, (toggleBreathing_eq pausedPending1).2.2 (by decide)⟩⟩

/-- C11: the calls made under an invalid precondition change nothing:
`requestPause` in a state that is not running, `resumeAnimation` in a running
state, and `startPhaseAnimation` in a state that is not running (with an
explicit duration, or with the default one when the index is inside the table,
as it is in every reachable state) each return the state they were given, so
index, flags, label, point and every active timer, an idle-glyph timer
included, are unchanged. -/
theorem invalid_precondition_noop (s : State) :
    (s.isRunning = false → requestPause s = s) ∧
    (s.isRunning = true → resumeAnimation s = some s) ∧
    (s.isRunning = false → ∀ d, startPhaseAnimation (some d) s = some s) ∧
    (s.isRunning = false → s.currentPhaseIndex < 4 → startPhaseAnimation none s = some s) ∧
    (s.isRunning = false → Reachable s → startPhaseAnimation none s = some s) := by
  have hdef : s.isRunning = false → s.currentPhaseIndex < 4 →
      startPhaseAnimation none s = some s := by
    intro h hi
    obtain ⟨p, hp⟩ := phases_lookup _ hi
    simp [startPhaseAnimation, h, hp]
  refine ⟨?_, ?_, ?_, hdef, ?_⟩
  · intro h
    simp [requestPause, h]
  · intro h
    simp [resumeAnimation, h]
  · intro h d
    simp [startPhaseAnimation, h]
  · intro h hr
    exact hdef h (reachable_inv s hr).idx_lt

theorem invalid_precondition_noop_witness :
    (pausedPending1.isRunning = false ∧ idleTimers pausedPending1 ≠ [] ∧
      requestPause pausedPending1 = pausedPending1 ∧
      startPhaseAnimation none pausedPending1 = some pausedPending1) ∧
    (animating0.isRunning = true ∧ resumeAnimation animating0 = some animating0) :=
  ⟨⟨by decide, by decide, (invalid_precondition_noop pausedPending1).1 (by decide),
      (invalid_precondition_noop pausedPending1).2.2.2.2 (by decide) reachable_pausedPending1⟩,
    ⟨by decide, (invalid_precondition_noop animating0).2.1 (by decide)⟩⟩

/-- C12: in every reachable state in which `isPausedRequested` is true, either
`isRunning` is true or the idle-glyph timer set by the pause completion, with
its delay of 1000 ms, is still active. -/
theorem paused_flag_running_or_glyph_pending (s : State) (h : Reachable s)
    (hp : s.isPausedRequested = true) :
    s.isRunning = true ∨
      ∃ t, t ∈ s.timers ∧ t.kind = TimerKind.idleGlyph ∧ t.delay = 1000 ∧
        s.resumeButtonTimeoutId = some t.id := by
  obtain ⟨-, -, -, h4⟩ := reachable_inv s h
  rcases h4 with ⟨-, -, e⟩ | ⟨a, d, -, -, -, hr⟩ | ⟨r, e, hr, -, -⟩ |
    ⟨r, a, d, -, -, -, -, hr, -⟩
  · rw [e] at hp
    cases hp
  · exact Or.inl hr
  · exact Or.inr ⟨⟨r, .idleGlyph, 1000⟩, by simp [e], rfl, rfl, hr⟩
  · exact Or.inl hr

theorem paused_flag_running_or_glyph_pending_witness :
    Reachable pausedPending1 ∧ pausedPending1.isPausedRequested = true ∧
    pausedPending1.isRunning = false ∧
    (pausedPending1.isRunning = true ∨
      ∃ t, t ∈ pausedPending1.timers ∧ t.kind = TimerKind.idleGlyph ∧ t.delay = 1000 ∧
        pausedPending1.resumeButtonTimeoutId = some t.id) :=
  ⟨reachable_pausedPending1, by decide, by decide,
    paused_flag_running_or_glyph_pending pausedPending1 reachable_pausedPending1 (by decide)⟩

theorem resetAnimationToStart_total (s : State) : ∃ s1, resetAnimationToStart s = some s1 := by
  simp [resetAnimationToStart, phases]

theorem startPhaseAnimation_total (s : State) (h : s.currentPhaseIndex < 4) :
    ∃ s1, startPhaseAnimation none s = some s1 := by
  obtain ⟨p, hp⟩ := phases_lookup _ h
  cases hr : s.isRunning <;> simp [startPhaseAnimation, hr, hp]

theorem resumeAnimation_total (s : State) (h : s.currentPhaseIndex < 4) :
    ∃ s1, resumeAnimation s = some s1 := by
  obtain ⟨p, hp⟩ := phases_lookup _ h
  cases hr : s.isRunning <;> simp [resumeAnimation, startPhaseAnimation, hr, hp]

theorem startBreathing_total (s : State) (h : s.currentPhaseIndex < 4) :
    ∃ s1, startBreathing s = some s1 := by
  obtain ⟨p, hp⟩ := phases_lookup _ h
  cases hr : s.isRunning
  · by_cases h0 : s.currentPhaseIndex = 0
    · simp [startBreathing, resetAnimationToStart, startPhaseAnimation, hr, h0, phases]
    · simp [startBreathing, startPhaseAnimation, hr, h0, hp]
  · simp [startBreathing, hr]

theorem phaseTimeoutCallback_total (computed : Position) (s : State) :
    ∃ s1, phaseTimeoutCallback computed s = some s1 := by
  have hlt : (s.currentPhaseIndex + 1) % 4 < 4 := Nat.mod_lt _ (by decide)
  obtain ⟨p, hp⟩ := phases_lookup _ hlt
  cases hq : s.isPausedRequested
  · cases hr : s.isRunning <;>
      simp [phaseTimeoutCallback, startPhaseAnimation, phases_length, hq, hr, hp]
  · simp [phaseTimeoutCallback, phases_length, hq, hp]

theorem fireTimer_total (computed : Position) (s : State) (t : Timer) (ht : t ∈ s.timers) :
    ∃ s1, fireTimer t.id computed s = some s1 := by
  unfold fireTimer
  cases hf : s.timers.find? (fun u => u.id == t.id) with
  | none =>
    rw [List.find?_eq_none] at hf
    have := hf t ht
    simp at this
  | some u =>
    cases hk : u.kind with
    | phaseTimeout =>
      simp only [hk]
      exact phaseTimeoutCallback_total computed _
    | idleGlyph =>
      simp only [hk]
      exact ⟨_, rfl⟩

/-- C13: in every reachable state `currentPhaseIndex` is below `phases.length`,
which is 4, so `phases[currentPhaseIndex]` is a phase of the table; hence no
lookup fails: `resetAnimationToStart`, `startBreathing`, `resumeAnimation`,
`toggleBreathing`, `startPhaseAnimation` and the callback of every active timer
all return. -/
theorem index_in_range (s : State) (h : Reachable s) :
    s.currentPhaseIndex < phases.length ∧ phases.length = 4 ∧
    (∃ p, phases[s.currentPhaseIndex]? = some p ∧ p ∈ phases) ∧
    (∃ s1, resetAnimationToStart s = some s1) ∧
    (∃ s1, startBreathing s = some s1) ∧
    (∃ s1, resumeAnimation s = some s1) ∧
    (∃ s1, toggleBreathing s = some s1) ∧
    (∃ s1, startPhaseAnimation none s = some s1) ∧
    (∀ t ∈ s.timers, ∀ computed, ∃ s1, fireTimer t.id computed s = some s1) := by
  have hi := (reachable_inv s h).idx_lt
  obtain ⟨p, hp⟩ := phases_lookup _ hi
  refine ⟨hi, rfl, ⟨p, hp, List.getElem?_mem hp⟩, resetAnimationToStart_total s,
    startBreathing_total s hi, resumeAnimation_total s hi, ?_, startPhaseAnimation_total s hi,
    fun t ht c => fireTimer_total c s t ht⟩
  unfold toggleBreathing
  split
  · exact ⟨_, rfl⟩
  · exact resumeAnimation_total s hi

theorem index_in_range_witness :
    Reachable animating3 ∧ animating3.currentPhaseIndex = 3 ∧
    (animating3.currentPhaseIndex < phases.length ∧ phases.length = 4 ∧
    (∃ p, phases[animating3.currentPhaseIndex]? = some p ∧ p ∈ phases) ∧
    (∃ s1, resetAnimationToStart animating3 = some s1) ∧
    (∃ s1, startBreathing animating3 = some s1) ∧
    (∃ s1, resumeAnimation animating3 = some s1) ∧
    (∃ s1, toggleBreathing animating3 = some s1) ∧
    (∃ s1, startPhaseAnimation none animating3 = some s1) ∧
    (∀ t ∈ animating3.timers, ∀ computed,
      ∃ s1, fireTimer t.id computed animating3 = some s1)) :=
  ⟨reachable_animating3, by decide, index_in_range animating3 reachable_animating3⟩

theorem find_fresh (timers : List Timer) (n : Nat) (k : TimerKind) (d : Nat)
    (hfresh : ∀ t ∈ timers, t.id < n) :
    (timers ++ [Timer.mk n k d]).find? (fun t => t.id == n) = some (Timer.mk n k d) ∧
      (timers ++ [Timer.mk n k d]).filter (fun u => u.id != n) = timers := by
  have h1 : timers.find? (fun t => t.id == n) = none := by
    rw [List.find?_eq_none]
    intro t ht
    simpa using ne_of_lt (hfresh t ht)
  have h2 : timers.filter (fun u => u.id != n) = timers := by
    rw [List.filter_eq_self]
    intro t ht
    simpa using ne_of_lt (hfresh t ht)
  constructor
  · simp [List.find?_append, h1]
  · simp [List.filter_append, h2]

/-- Whole-second overrides. In every running state at index `i` inside the
table, for an override `d` that is a whole number of seconds with
`d * 1000 < 2 ^ 53` (the range in which a JavaScript number holds `d` and
`d * 1000` exactly and prints `d` as its decimal digits),
`startPhaseAnimation(d)` sets the label and target of phase `i`, sets the
transition to `left ds linear, top ds linear` and sets a phase-timeout timer
with delay `d * 1000` ms. If no pause is requested and the active timers hold
handles already given out, the firing of that timer runs phase `(i + 1) % 4`
with its own duration for the transition and the next timer, whatever `d`. -/
theorem startPhaseAnimation_whole_seconds (s : State) (i d : Nat)
    (hrun : s.isRunning = true) (hidx : s.currentPhaseIndex = i) (hi : i < 4)
    (_hexact : d * 1000 < 2 ^ 53) :
    ∃ s1 p q, phases[i]? = some p ∧ phases[(i + 1) % 4]? = some q ∧
      startPhaseAnimation (some d) s = some s1 ∧
      s1.phaseText = p.name ∧
      s1.point.left = (calculateArrowPosition p.action).left ∧
      s1.point.top = (calculateArrowPosition p.action).top ∧
      s1.point.transition =
        "left " ++ toString d ++ "s linear, top " ++ toString d ++ "s linear" ∧
      s1.timers = s.timers ++ [⟨s.nextTimerId, .phaseTimeout, d * 1000⟩] ∧
      s1.animationTimeoutId = some s.nextTimerId ∧
      (s.isPausedRequested = false → (∀ t ∈ s.timers, t.id < s.nextTimerId) →
        ∀ computed, ∃ s2, fireTimer s.nextTimerId computed s1 = some s2 ∧
          s2.isRunning = true ∧ s2.currentPhaseIndex = (i + 1) % 4 ∧
          s2.phaseText = q.name ∧
          s2.point.left = (calculateArrowPosition q.action).left ∧
          s2.point.top = (calculateArrowPosition q.action).top ∧
          s2.point.transition =
            "left " ++ toString q.duration ++ "s linear, top " ++ toString q.duration ++
              "s linear" ∧
          s2.timers =
            s.timers ++ [⟨s.nextTimerId + 1, .phaseTimeout, q.duration * 1000⟩]) := by
  obtain ⟨idx, run, paused, aid, rid, txt, pt, aa, pc, timers, next⟩ := s
  simp only at hrun hidx
  subst hrun hidx
  obtain ⟨p, hp⟩ := phases_lookup idx hi
  have hlt : (idx + 1) % 4 < 4 := Nat.mod_lt _ (by decide)
  obtain ⟨q, hq⟩ := phases_lookup _ hlt
  refine ⟨_, p, q, hp, hq, by simp [startPhaseAnimation, hp]; rfl, rfl, rfl, rfl, rfl, rfl,
    rfl, ?_⟩
  intro hpause hfresh computed
  simp only at hpause hfresh
  subst hpause
  obtain ⟨f1, f2⟩ := find_fresh timers next .phaseTimeout (d * 1000) hfresh
  have e : linearTransition q.duration =
      "left " ++ toString q.duration ++ "s linear, top " ++ toString q.duration ++
        "s linear" := rfl
  simp [fireTimer, f1, f2, phaseTimeoutCallback, startPhaseAnimation, phases_length, hq, ← e]

theorem startPhaseAnimation_whole_seconds_example :
    (startPhaseAnimation (some 2) animating0).map
        (fun s1 => (s1.point.transition, s1.timers))
      = some ("left 2s linear, top 2s linear",
          [⟨1, .phaseTimeout, 4000⟩, ⟨2, .phaseTimeout, 2000⟩]) ∧
    ((startPhaseAnimation (some 2) animating0).bind (fireTimer 2 ⟨"-8px", "-8px"⟩)).map
        (fun s2 => (s2.currentPhaseIndex, s2.point.transition, s2.timers))
      = some (1, "left 4s linear, top 4s linear",
          [⟨1, .phaseTimeout, 4000⟩, ⟨3, .phaseTimeout, 4000⟩]) := by
  decide

/-- C15: in every reachable state `isRunning` is true exactly when a
phase-timeout timer is active. So a phase-timeout timer that can fire finds
`isRunning` true, a stopped controller has no phase-timeout timer left, and
neither has the state after a reset. -/
theorem running_iff_phase_timer (s : State) (h : Reachable s) :
    (s.isRunning = true ↔ phaseTimers s ≠ []) ∧
    (∀ t ∈ s.timers, t.kind = TimerKind.phaseTimeout → s.isRunning = true) ∧
    (s.isRunning = false → phaseTimers s = []) ∧
    (∀ s1, resetAnimationToStart s = some s1 → s1.isRunning = false ∧ phaseTimers s1 = []) := by
  have key : ∀ u, Inv u → ((u.isRunning = true ↔ phaseTimers u ≠ []) ∧
      (∀ t ∈ u.timers, t.kind = TimerKind.phaseTimeout → u.isRunning = true) ∧
      (u.isRunning = false → phaseTimers u = [])) := by
    intro u hu
    obtain ⟨-, -, -, h4⟩ := hu
    rcases h4 with ⟨e, hr, -⟩ | ⟨a, d, e, -, -, hr⟩ | ⟨r, e, -, hr, -⟩ |
      ⟨r, a, d, e, -, -, -, hr, -⟩ <;> simp [phaseTimers, e, hr]
  obtain ⟨k1, k2, k3⟩ := key s (reachable_inv s h)
  refine ⟨k1, k2, k3, ?_⟩
  intro s1 e
  have hr : s1.isRunning = false := by
    simp [resetAnimationToStart, phases] at e
    subst e
    rfl
  exact ⟨hr, (key s1 (inv_reset s s1 (reachable_inv s h) e)).2.2 hr⟩

theorem running_iff_phase_timer_witness :
    Reachable bothPending ∧ bothPending.isRunning = true ∧ phaseTimers bothPending ≠ [] ∧
    ((bothPending.isRunning = true ↔ phaseTimers bothPending ≠ []) ∧
    (∀ t ∈ bothPending.timers, t.kind = TimerKind.phaseTimeout →
      bothPending.isRunning = true) ∧
    (bothPending.isRunning = false → phaseTimers bothPending = []) ∧
    (∀ s1, resetAnimationToStart bothPending = some s1 →
      s1.isRunning = false ∧ phaseTimers s1 = [])) :=
  ⟨reachable_bothPending, by decide, by decide,
    running_iff_phase_timer bothPending reachable_bothPending⟩

theorem reachable_staleGlyph : Reachable staleGlyph :=
  reachable_runEvents staleGlyphEvents loaded staleGlyph reachable_loaded (by decide)

/-- C16 (as the code behaves): the state reached by resume, pause, the end of
phase 0, `startBreathing` and then the firing of the idle-glyph timer of that
pause is reachable, is running phase 1 with its phase-timeout timer active, and
shows the idle glyph `▶`. `startBreathing` at a non-zero index does not cancel
the idle-glyph timer, which `resumeAnimation` and `requestPause` do. -/
theorem idle_glyph_while_running :
    runEvents staleGlyphEvents loaded = some staleGlyph ∧ Reachable staleGlyph ∧
    staleGlyph.isRunning = true ∧ staleGlyph.currentPhaseIndex = 1 ∧
    staleGlyph.phaseText = "▶" ∧
    phaseTimers staleGlyph = [⟨3, .phaseTimeout, 4000⟩] ∧
    ¬ (∀ s, Reachable s → s.phaseText = "▶" → s.isRunning = false) := by
  refine ⟨by decide, reachable_staleGlyph, by decide, by decide, by decide, by decide, ?_⟩
  intro hall
  have := hall staleGlyph reachable_staleGlyph (by decide)
  revert this
  decide

/-- C17: on the page as loaded (whatever handle the first timer gets), where the
point sits at `(-8px, 292px)`, one `toggleBreathing` starts phase 0:
`isRunning` is true, the index is 0, the label is `INHALE`, the point is
targeted at `(-8px, -8px)` with a transition of 4 seconds on left and top, and
exactly one timer is active, a phase-timeout timer with delay 4000 ms. -/
theorem toggle_from_load_starts_phase0 (firstHandle : Nat) :
    ∃ s0 s1, resetAnimationToStart (moduleInit firstHandle) = some s0 ∧
      s0.isRunning = false ∧ s0.point.left = "-8px" ∧ s0.point.top = "292px" ∧
      toggleBreathing s0 = some s1 ∧
      s1.isRunning = true ∧ s1.isPausedRequested = false ∧ s1.currentPhaseIndex = 0 ∧
      s1.phaseText = "INHALE" ∧
      s1.point.left = "-8px" ∧ s1.point.top = "-8px" ∧
      s1.point.transition = "left 4s linear, top 4s linear" ∧
      s1.timers = [⟨firstHandle, .phaseTimeout, 4000⟩] ∧
      s1.animationTimeoutId = some firstHandle := by
  simp [resetAnimationToStart, moduleInit, clearTimer, phases, toggleBreathing,
    resumeAnimation, startPhaseAnimation]
  decide

theorem reset_position (s : State) :
    ∃ s1, resetAnimationToStart s = some s1 ∧
      s1.point.left = (calculateArrowPosition (actionAt (prevIndex 0))).left ∧
      s1.point.top = (calculateArrowPosition (actionAt (prevIndex 0))).top ∧
      s1.point.left = "-8px" ∧ s1.point.top = "292px" := by
  simp [resetAnimationToStart, phases]
  decide

/-- C18: for every phase index `i` below 4, the target of phase `i` and the
target of the phase before it, index `(i - 1) mod 4` (for `i = 0` the last
phase, index 3), agree in one coordinate and differ in the other by exactly
`visualSquareSize`, which is 300; the rendered `px` positions likewise differ
in exactly one of left and top. From every state a reset returns, and it puts
the point at the target of the phase before phase 0, `(-8px, 292px)`. -/
theorem targets_trace_square_edges (i : Nat) (hi : i < 4) :
    prevIndex i < 4 ∧ prevIndex i = (i + 3) % 4 ∧ visualSquareSize = 300 ∧
    (((targetCoords (actionAt i)).1 = (targetCoords (actionAt (prevIndex i))).1 ∧
        ((targetCoords (actionAt i)).2 - (targetCoords (actionAt (prevIndex i))).2).natAbs
          = visualSquareSize.natAbs) ∨
      ((targetCoords (actionAt i)).2 = (targetCoords (actionAt (prevIndex i))).2 ∧
        ((targetCoords (actionAt i)).1 - (targetCoords (actionAt (prevIndex i))).1).natAbs
          = visualSquareSize.natAbs)) ∧
    (((calculateArrowPosition (actionAt i)).left =
          (calculateArrowPosition (actionAt (prevIndex i))).left ∧
        (calculateArrowPosition (actionAt i)).top ≠
          (calculateArrowPosition (actionAt (prevIndex i))).top) ∨
      ((calculateArrowPosition (actionAt i)).top =
          (calculateArrowPosition (actionAt (prevIndex i))).top ∧
        (calculateArrowPosition (actionAt i)).left ≠
          (calculateArrowPosition (actionAt (prevIndex i))).left)) ∧
    (∀ s, ∃ s1, resetAnimationToStart s = some s1 ∧
      s1.point.left = (calculateArrowPosition (actionAt (prevIndex 0))).left ∧
      s1.point.top = (calculateArrowPosition (actionAt (prevIndex 0))).top ∧
      s1.point.left = "-8px" ∧ s1.point.top = "292px") := by
  have hr := reset_position
  interval_cases i <;> exact ⟨by decide, by decide, by decide, by decide, by decide, hr⟩

theorem targets_trace_square_edges_witness :
    (0 : Nat) < 4 ∧ actionAt 0 = "inhale" ∧ actionAt (prevIndex 0) = "hold-bottom" ∧
    targetCoords (actionAt 0) = (-8, -8) ∧ targetCoords (actionAt (prevIndex 0)) = (-8, 292) ∧
    (resetAnimationToStart animating3).map (fun s1 => (s1.point.left, s1.point.top))
      = some ("-8px", "292px") ∧
    (resetAnimationToStart animating3).map (fun s1 => (s1.point.left, s1.point.top))
      = some ((calculateArrowPosition (actionAt (prevIndex 0))).left,
          (calculateArrowPosition (actionAt (prevIndex 0))).top) ∧
    (prevIndex 0 < 4 ∧ prevIndex 0 = (0 + 3) % 4 ∧ visualSquareSize = 300 ∧
    (((targetCoords (actionAt 0)).1 = (targetCoords (actionAt (prevIndex 0))).1 ∧
        ((targetCoords (actionAt 0)).2 - (targetCoords (actionAt (prevIndex 0))).2).natAbs
          = visualSquareSize.natAbs) ∨
      ((targetCoords (actionAt 0)).2 = (targetCoords (actionAt (prevIndex 0))).2 ∧
        ((targetCoords (actionAt 0)).1 - (targetCoords (actionAt (prevIndex 0))).1).natAbs
          = visualSquareSize.natAbs)) ∧
    (((calculateArrowPosition (actionAt 0)).left =
          (calculateArrowPosition (actionAt (prevIndex 0))).left ∧
        (calculateArrowPosition (actionAt 0)).top ≠
          (calculateArrowPosition (actionAt (prevIndex 0))).top) ∨
      ((calculateArrowPosition (actionAt 0)).top =
          (calculateArrowPosition (actionAt (prevIndex 0))).top ∧
        (calculateArrowPosition (actionAt 0)).left ≠
          (calculateArrowPosition (actionAt (prevIndex 0))).left)) ∧
    (∀ s, ∃ s1, resetAnimationToStart s = some s1 ∧
      s1.point.left = (calculateArrowPosition (actionAt (prevIndex 0))).left ∧
      s1.point.top = (calculateArrowPosition (actionAt (prevIndex 0))).top ∧
      s1.point.left = "-8px" ∧ s1.point.top = "292px")) :=
  ⟨by decide, by decide, by decide, by decide, by decide, by decide, by decide,
    targets_trace_square_edges 0 (by decide)⟩

theorem phase_name_ne_glyph (i : Nat) (p : Phase) (h : phases[i]? = some p) :
    p.name ≠ "▶" := by
  have hall : ∀ q ∈ phases, q.name ≠ "▶" := by decide
  exact hall p (List.getElem?_mem h)

theorem wired_resume (s s1 : State) (hs : Inv s) (h : resumeAnimation s = some s1)
    (hw : s.isRunning = true →
      (∃ a d, s.timers = [⟨a, .phaseTimeout, d⟩]) ∧ s.phaseText ≠ "▶") :
    s1.isRunning = true →
      (∃ a d, s1.timers = [⟨a, .phaseTimeout, d⟩]) ∧ s1.phaseText ≠ "▶" := by
  obtain ⟨idx, run, paused, aid, rid, txt, pt, aa, pc, timers, next⟩ := s
  obtain ⟨h1, h2, h3, h4⟩ := hs
  simp only at h1 h2 h3 h4 hw
  obtain ⟨p, hp⟩ := phases_lookup idx h1
  have hn := phase_name_ne_glyph idx p hp
  cases run
  · simp [resumeAnimation, startPhaseAnimation, hp] at h
    subst h
    intro _
    rcases h4 with ⟨ht, -, -⟩ | ⟨a, d, ht, ha, hr, hrun⟩ | ⟨r, ht, hr, -, -⟩ |
      ⟨r, a, d, ht, hr, ha, hne, hrun, -⟩
    · subst ht
      refine ⟨⟨next, p.duration * 1000, ?_⟩, hn⟩
      cases rid <;> simp [clearTimer]
    · simp at hrun
    · subst ht hr
      exact ⟨⟨next, p.duration * 1000, by simp [clearTimer]⟩, hn⟩
    · simp at hrun
  · simp [resumeAnimation] at h
    subst h
    exact hw

theorem wired_pause (s : State) (hs : Inv s)
    (hw : s.isRunning = true →
      (∃ a d, s.timers = [⟨a, .phaseTimeout, d⟩]) ∧ s.phaseText ≠ "▶") :
    (requestPause s).isRunning = true →
      (∃ a d, (requestPause s).timers = [⟨a, .phaseTimeout, d⟩]) ∧
        (requestPause s).phaseText ≠ "▶" := by
  obtain ⟨idx, run, paused, aid, rid, txt, pt, aa, pc, timers, next⟩ := s
  obtain ⟨h1, h2, h3, h4⟩ := hs
  simp only at h1 h2 h3 h4 hw
  cases run
  · simp [requestPause]
  · intro _
    obtain ⟨⟨a, d, ht⟩, -⟩ := hw rfl
    subst ht
    refine ⟨⟨a, d, ?_⟩, by simp [requestPause]⟩
    rcases h4 with ⟨e, -, -⟩ | ⟨a2, d2, e, ha, hr, -⟩ | ⟨r, e, -, -, -⟩ |
      ⟨r, a2, d2, e, -, -, -, -, -⟩
    · simp at e
    · simp at e
      obtain ⟨e1, e2⟩ := e
      subst e1 e2
      cases rid with
      | none => simp [requestPause, clearTimer]
      | some r =>
        have hne : ¬ a = r := fun e => hr (by simp [e])
        simp [requestPause, clearTimer, hne]
    · simp at e
    · simp at e

theorem wired_fire (s s1 : State) (h : Nat) (computed : Position) (hs : Inv s)
    (hf : fireTimer h computed s = some s1)
    (hw : s.isRunning = true →
      (∃ a d, s.timers = [⟨a, .phaseTimeout, d⟩]) ∧ s.phaseText ≠ "▶") :
    s1.isRunning = true →
      (∃ a d, s1.timers = [⟨a, .phaseTimeout, d⟩]) ∧ s1.phaseText ≠ "▶" := by
  obtain ⟨idx, run, paused, aid, rid, txt, pt, aa, pc, timers, next⟩ := s
  obtain ⟨h1, h2, h3, h4⟩ := hs
  simp only at h1 h2 h3 h4 hw
  have hlt : (idx + 1) % 4 < 4 := Nat.mod_lt _ (by decide)
  obtain ⟨p, hp⟩ := phases_lookup _ hlt
  have hn := phase_name_ne_glyph _ p hp
  rcases h4 with ⟨ht, -, -⟩ | ⟨a, d, ht, ha, hr, hrun⟩ | ⟨r, ht, hr, hrun, hq⟩ |
    ⟨r, a, d, ht, hr, ha, hne, hrun, hq⟩
  · subst ht
    simp [fireTimer] at hf
  · subst ht hrun
    by_cases e : a = h
    · subst e
      cases paused
      · simp [fireTimer, phaseTimeoutCallback, startPhaseAnimation, phases_length, hp] at hf
        subst hf
        intro _
        exact ⟨⟨next, p.duration * 1000, rfl⟩, hn⟩
      · simp [fireTimer, phaseTimeoutCallback, phases_length, hp] at hf
        subst hf
        simp
    · simp [fireTimer, e] at hf
  · subst ht hrun
    by_cases e : r = h
    · subst e
      simp [fireTimer, idleGlyphCallback] at hf
      subst hf
      simp
    · simp [fireTimer, e] at hf
  · subst ht hrun
    obtain ⟨⟨a2, d2, e⟩, -⟩ := hw rfl
    simp at e

theorem wired_inv (s : State) (h : ReachableWired s) :
    Inv s ∧ (s.isRunning = true →
      (∃ a d, s.timers = [⟨a, .phaseTimeout, d⟩]) ∧ s.phaseText ≠ "▶") := by
  induction h with
  | load n s h =>
    refine ⟨inv_load n s h, ?_⟩
    simp [resetAnimationToStart, phases] at h
    subst h
    simp
  | reset s s1 _ h ih =>
    refine ⟨inv_reset s s1 ih.1 h, ?_⟩
    simp [resetAnimationToStart, phases] at h
    subst h
    simp
  | pause s _ ih => exact ⟨inv_pause s ih.1, wired_pause s ih.1 ih.2⟩
  | resume s s1 _ h ih => exact ⟨inv_resume s s1 ih.1 h, wired_resume s s1 ih.1 h ih.2⟩
  | toggle s s1 _ h ih =>
    refine ⟨inv_toggle s s1 ih.1 h, ?_⟩
    unfold toggleBreathing at h
    split at h
    · simp at h
      subst h
      exact wired_pause s ih.1 ih.2
    · exact wired_resume s s1 ih.1 h ih.2
  | fire s s1 h c _ hf ih => exact ⟨inv_fire s s1 h c ih.1 hf, wired_fire s s1 h c ih.1 hf ih.2⟩

theorem idle_glyph_only_when_stopped_wired (s : State) (h : ReachableWired s)
    (hg : s.phaseText = "▶") : s.isRunning = false := by
  cases hr : s.isRunning with
  | false => rfl
  | true => exact absurd hg ((wired_inv s h).2 hr).2

end BoxBreathing
